import Mathlib

/-!
Verification development for the Spotify playlist harvester
(`scripts/dynamic_retrieval.go`-style single-file Go program).

The Go program is shallowly embedded: pure functions become Lean
functions, the mutable harvester state becomes explicit state passing,
and the I/O layer (HTTP fetches, CSV writes, the snapshot file, the
system clock, `math.Log10`, RFC3339/RFC1123 time parsing) is modelled
by explicit effect lists and abstract function parameters.  Go `float64`
arithmetic is modelled over `ℚ` with `math.Log10` an uninterpreted
parameter; Go `string` becomes Lean `String` (byte-level substring and
ordering operations on valid UTF-8 agree with the character-level ones
used here; `ToLower`/`TrimSpace` are modelled by the ASCII
`toLowerS`/`trimS`, which agree with Go on the ASCII inputs
exercised below).
-/

namespace Harvest

/-- Go `unicode.IsSpace` restricted to the ASCII range (the only
whitespace appearing in the inputs below). -/
def goIsSpace (c : Char) : Bool :=
  c = ' ' || c = '\t' || c = '\n' || c = '\x0b' || c = '\x0c' || c = '\r'

/-- Go `strings.ToLower` (ASCII case mapping, structurally recursive so
proofs can evaluate it). -/
def toLowerS (s : String) : String := ⟨s.data.map Char.toLower⟩

/-- Drop leading and trailing whitespace from a character list. -/
def trimChars (l : List Char) : List Char :=
  ((l.dropWhile goIsSpace).reverse.dropWhile goIsSpace).reverse

/-- Go `strings.TrimSpace`. -/
def trimS (s : String) : String := ⟨trimChars s.data⟩

/-- Go `seedArtist`: canonical name, alias list, external id, top-track ids. -/
structure seedArtist where
  Name : String
  Aliases : List String
  SpotifyID : String
  TopTrackIDs : List String
deriving DecidableEq, Repr

/-- Go `seedTrack`. -/
structure seedTrack where
  ID : String
  Name : String
deriving DecidableEq, Repr

/-- Go `harvestSeeds`. -/
structure harvestSeeds where
  Keywords : List String
  Genres : List String
  Moods : List String
  Meta : List String
  Locales : List String
  Artists : List seedArtist
  Tracks : List seedTrack
deriving DecidableEq, Repr

/-- Go `seedQuery`. -/
structure seedQuery where
  Query : String
  Source : String
deriving DecidableEq, Repr

/-- State of the `add` closure inside `generateSeedQueries`: the `seen`
set of lowercase keys and the accumulated result slice. -/
structure genState where
  seen : List String
  result : List seedQuery
deriving DecidableEq, Repr

/-- The `add` closure of `generateSeedQueries`: trim, drop empties,
dedup by lowercase key, append. -/
def addQuery (st : genState) (text source : String) : genState :=
  let trimmed := trimS text
  if trimmed = "" then st
  else
    let key := toLowerS trimmed
    if key ∈ st.seen then st
    else { seen := key :: st.seen, result := st.result ++ [⟨trimmed, source⟩] }

/-- The candidate `(text, source)` pairs fed to `add` by the loops of
`generateSeedQueries`, in loop order.  Note the alias inner loop adds
the raw alias and `"<alias> hits"` only. -/
def seedCandidates (seeds : harvestSeeds) : List (String × String) :=
  (seeds.Keywords.map (fun kw => (kw, "keyword")))
  ++ (seeds.Genres.map (fun g => (g, "genre")))
  ++ (seeds.Moods.map (fun m => (m, "mood")))
  ++ (seeds.Locales.map (fun l => (l, "locale")))
  ++ (seeds.Meta.map (fun m => (m, "meta")))
  ++ (seeds.Moods.flatMap (fun mood =>
        seeds.Genres.map (fun genre => (mood ++ " " ++ genre, "mood+genre"))))
  ++ (seeds.Locales.flatMap (fun locale =>
        seeds.Genres.map (fun genre => (locale ++ " " ++ genre, "locale+genre"))))
  ++ (seeds.Meta.flatMap (fun meta =>
        seeds.Genres.map (fun genre => (meta ++ " " ++ genre, "meta+genre"))))
  ++ (seeds.Artists.flatMap (fun artist =>
        [(artist.Name, "artist"),
         (artist.Name ++ " best", "artist-meta"),
         (artist.Name ++ " hits", "artist-meta")]
        ++ artist.Aliases.flatMap (fun al =>
             [(al, "artist-alias"), (al ++ " hits", "artist-alias")])))
  ++ (seeds.Tracks.flatMap (fun track =>
        [(track.Name, "track"), (track.Name ++ " playlist", "track")]))

/-- Go `generateSeedQueries`: fold the `add` closure over the candidates. -/
def generateSeedQueries (seeds : harvestSeeds) : List seedQuery :=
  ((seedCandidates seeds).foldl (fun st p => addQuery st p.1 p.2) ⟨[], []⟩).result

/-- Dedup-by-lowercase with first occurrence winning, given an initial
set of already-used lowercase keys. -/
def dedupByLower (seen : List String) : List String → List String
  | [] => []
  | x :: xs =>
    if toLowerS x ∈ seen then dedupByLower seen xs
    else x :: dedupByLower (toLowerS x :: seen) xs

/-- Modelled from the spec (section 4.1): the reference candidate text
sequence, which at step (9) lists per-artist the canonical name,
"name best", "name hits", then per-alias **the same two suffixes**
("alias best", "alias hits"). -/
def specCandidateTexts (seeds : harvestSeeds) : List String :=
  seeds.Keywords ++ seeds.Genres ++ seeds.Moods ++ seeds.Locales ++ seeds.Meta
  ++ (seeds.Moods.flatMap (fun mood => seeds.Genres.map (fun genre => mood ++ " " ++ genre)))
  ++ (seeds.Locales.flatMap (fun locale => seeds.Genres.map (fun genre => locale ++ " " ++ genre)))
  ++ (seeds.Meta.flatMap (fun meta => seeds.Genres.map (fun genre => meta ++ " " ++ genre)))
  ++ (seeds.Artists.flatMap (fun artist =>
        [artist.Name, artist.Name ++ " best", artist.Name ++ " hits"]
        ++ artist.Aliases.flatMap (fun al => [al ++ " best", al ++ " hits"])))
  ++ (seeds.Tracks.flatMap (fun track => [track.Name, track.Name ++ " playlist"]))

/-- Modelled from the spec with the one forced amendment at step (9):
per-alias the raw alias itself and "alias hits" (no "alias best"). -/
def amendedCandidateTexts (seeds : harvestSeeds) : List String :=
  seeds.Keywords ++ seeds.Genres ++ seeds.Moods ++ seeds.Locales ++ seeds.Meta
  ++ (seeds.Moods.flatMap (fun mood => seeds.Genres.map (fun genre => mood ++ " " ++ genre)))
  ++ (seeds.Locales.flatMap (fun locale => seeds.Genres.map (fun genre => locale ++ " " ++ genre)))
  ++ (seeds.Meta.flatMap (fun meta => seeds.Genres.map (fun genre => meta ++ " " ++ genre)))
  ++ (seeds.Artists.flatMap (fun artist =>
        [artist.Name, artist.Name ++ " best", artist.Name ++ " hits"]
        ++ artist.Aliases.flatMap (fun al => [al, al ++ " hits"])))
  ++ (seeds.Tracks.flatMap (fun track => [track.Name, track.Name ++ " playlist"]))

/-- The reference pipeline of the spec: trim every candidate, drop
empty/whitespace-only ones, dedup by lowercase with first occurrence
winning. -/
def referencePipeline (cands : List String) : List String :=
  dedupByLower [] ((cands.map trimS).filter (fun t => t ≠ ""))

/-- Unfolding the `add`-closure fold: the produced query texts are the
accumulated ones followed by the trim/filter/dedup pipeline applied to
the remaining candidate texts. -/
theorem foldl_addQuery_map_query (cands : List (String × String)) (seen : List String)
    (acc : List seedQuery) :
    ((cands.foldl (fun st p => addQuery st p.1 p.2) ⟨seen, acc⟩).result).map seedQuery.Query
      = acc.map seedQuery.Query
        ++ dedupByLower seen (((cands.map Prod.fst).map trimS).filter (fun t => t ≠ "")) := by
  induction cands generalizing seen acc with
  | nil => simp [dedupByLower]
  | cons p rest ih =>
    rw [List.foldl_cons]
    by_cases h1 : trimS p.1 = ""
    · rw [show addQuery ⟨seen, acc⟩ p.1 p.2 = ⟨seen, acc⟩ from by simp [addQuery, h1]]
      rw [ih]
      simp only [List.map_cons, List.filter_cons, h1]
      simp
    · by_cases h2 : toLowerS (trimS p.1) ∈ seen
      · rw [show addQuery ⟨seen, acc⟩ p.1 p.2 = ⟨seen, acc⟩ from by simp [addQuery, h1, h2]]
        rw [ih]
        simp only [List.map_cons, List.filter_cons, h1]
        simp [h1, dedupByLower, h2]
      · rw [show addQuery ⟨seen, acc⟩ p.1 p.2
            = ⟨toLowerS (trimS p.1) :: seen, acc ++ [⟨trimS p.1, p.2⟩]⟩ from by
          simp [addQuery, h1, h2]]
        rw [ih]
        simp only [List.map_cons, List.filter_cons, List.map_append, h1]
        simp [h1, dedupByLower, h2, List.append_assoc]

/-- The candidate texts of the source generator are exactly the amended
reference candidate texts. -/
theorem seedCandidates_fst (seeds : harvestSeeds) :
    (seedCandidates seeds).map Prod.fst = amendedCandidateTexts seeds := by
  simp [seedCandidates, amendedCandidateTexts, List.map_flatMap, Function.comp_def]

/-- `dedupByLower` emits no two entries with the same lowercase form,
and none whose lowercase form is already in the initial seen set. -/
theorem dedupByLower_lower_nodup (xs : List String) (seen : List String) :
    ((dedupByLower seen xs).map toLowerS).Nodup
      ∧ ∀ y ∈ dedupByLower seen xs, toLowerS y ∉ seen := by
  induction xs generalizing seen with
  | nil => simp [dedupByLower]
  | cons x rest ih =>
    by_cases h : toLowerS x ∈ seen
    · simpa [dedupByLower, h] using ih seen
    · have ihx := ih (toLowerS x :: seen)
      refine ⟨?_, ?_⟩
      · simp only [dedupByLower, if_neg h, List.map_cons, List.nodup_cons]
        exact ⟨fun hmem => by
          obtain ⟨y, hy, hylow⟩ := List.mem_map.mp hmem
          exact (ihx.2 y hy) (by simp [hylow]), ihx.1⟩
      · intro y hy
        simp only [dedupByLower, if_neg h, List.mem_cons] at hy
        rcases hy with rfl | hy
        · exact h
        · exact fun hmem => (ihx.2 y hy) (List.mem_cons_of_mem _ hmem)

/-- A concrete seed set with one artist "A" carrying one alias "b" and
nothing else; it separates the source generator from the spec's
reference sequence at step (9). -/
def cexSeeds : harvestSeeds := ⟨[], [], [], [], [], [⟨"A", ["b"], "", []⟩], []⟩

/-- C1 counterexample: on `cexSeeds` the source generator yields
["A", "A best", "A hits", "b", "b hits"], while the spec's reference
sequence ("per-alias the same two suffixes") yields
["A", "A best", "A hits", "b best", "b hits"]; the code never emits
"<alias> best". -/
theorem C1_cex_generateSeedQueries :
    (generateSeedQueries cexSeeds).map seedQuery.Query
      ≠ referencePipeline (specCandidateTexts cexSeeds) := by
  decide

/-- C1 (amended): for every SeedSet, `generateSeedQueries` returns the
candidates enumerated in the order (1) raw keywords, (2) raw genres,
(3) raw moods, (4) raw locales, (5) raw meta terms, (6) mood×genre,
(7) locale×genre, (8) meta×genre, (9) per-artist the canonical name,
"<name> best" and "<name> hits", then per-alias the raw alias and
"<alias> hits" (no "<alias> best"), (10) per-track the raw name and
"<name> playlist"; each candidate trimmed, empty candidates dropped,
deduplicated by lowercase text with the first occurrence winning, so
the result is deterministic and no two entries share a lowercase form. -/
theorem C1_generateSeedQueries_amended (seeds : harvestSeeds) :
    (generateSeedQueries seeds).map seedQuery.Query
        = referencePipeline (amendedCandidateTexts seeds)
      ∧ (((generateSeedQueries seeds).map seedQuery.Query).map toLowerS).Nodup := by
  have h := foldl_addQuery_map_query (seedCandidates seeds) [] []
  rw [seedCandidates_fst] at h
  constructor
  · simpa [generateSeedQueries, referencePipeline, seedCandidates_fst] using h
  · have := dedupByLower_lower_nodup
      (((amendedCandidateTexts seeds).map trimS).filter (fun t => t ≠ "")) []
    simp only [generateSeedQueries] at h ⊢
    rw [h]
    simpa [referencePipeline] using this.1

/-- Go map insertion (overwrite on key collision); lookup takes the
first entry, so prepending after removing the key models `m[k] = v`. -/
def mapInsertP {α : Type} (m : List (String × α)) (k : String) (v : α) : List (String × α) :=
  (k, v) :: m.filter (fun p => p.1 ≠ k)

/-- Go `snapshotCache`: path of the state file, id→token map, dirty flag.
The mutex only guards concurrent access and has no sequential content. -/
structure snapshotCache where
  path : String
  data : List (String × String)
  dirty : Bool
deriving DecidableEq, Repr

/-- Go `snapshotCache.IsUnchanged`. -/
def snapshotCache.IsUnchanged (s : snapshotCache) (id snapshot : String) : Bool :=
  if snapshot = "" then false
  else
    match s.data.lookup id with
    | some prev => prev = snapshot
    | none => false

/-- Go `snapshotCache.Update` on a non-nil receiver. -/
def snapshotCache.Update (s : snapshotCache) (id snapshot : String) : snapshotCache :=
  if snapshot = "" then s
  else if s.data.lookup id = some snapshot then s
  else { s with data := mapInsertP s.data id snapshot, dirty := true }

/-- Go `snapshotCache.Update` including the nil-receiver guard
(`if s == nil || snapshot == "" { return }`). -/
def updateOpt (s : Option snapshotCache) (id snapshot : String) : Option snapshotCache :=
  match s with
  | none => none
  | some c => some (c.Update id snapshot)

/-- Go `snapshotCache.Save`, success path: the `MkdirAll` and the
indented-JSON `WriteFile` of the full map are represented by the
returned write effect `(path, map)`; `none` means the filesystem is
untouched. -/
def snapshotCache.Save (s : snapshotCache) :
    snapshotCache × Option (String × List (String × String)) :=
  if s.path = "" then (s, none)
  else if s.dirty = false then (s, none)
  else ({ s with dirty := false }, some (s.path, s.data))

/-- Go `snapshotCache.Save` including the nil-receiver guard. -/
def saveOpt : Option snapshotCache →
    Option snapshotCache × Option (String × List (String × String))
  | none => (none, none)
  | some c => ((c.Save).1, (c.Save).2)

/-- C4: `IsUnchanged(id, "")` is always false, and for a non-empty
token `IsUnchanged(id, tok)` holds iff the stored token for `id`
(written by `Update` or loaded from the state file) equals `tok`
exactly — so it is false until such an update has happened. -/
theorem C4_IsUnchanged_spec :
    (∀ (c : snapshotCache) (id : String), c.IsUnchanged id "" = false)
    ∧ ∀ (c : snapshotCache) (id tok : String), tok ≠ "" →
        (c.IsUnchanged id tok = true ↔ c.data.lookup id = some tok) := by
  refine ⟨fun c id => by simp [snapshotCache.IsUnchanged], fun c id tok htok => ?_⟩
  rw [snapshotCache.IsUnchanged, if_neg htok]
  cases h : c.data.lookup id with
  | none => simp
  | some prev => simp [h]

/-- Witness for C4 at a concrete cache. -/
theorem C4_IsUnchanged_spec_witness :
    (snapshotCache.mk "p" [("a", "t1")] false).IsUnchanged "a" "t1" = true
      ↔ ([("a", "t1")] : List (String × String)).lookup "a" = some "t1" :=
  C4_IsUnchanged_spec.2 ⟨"p", [("a", "t1")], false⟩ "a" "t1" (by decide)

/-- C5: `Update` is a no-op when the token is empty or already stored;
otherwise it overwrites the entry and sets the dirty flag.  `Save` is a
no-op unless dirty, and a successful save writes the full map to the
configured path and clears the dirty flag. -/
theorem C5_update_save_invariant :
    (∀ (c : snapshotCache) (id tok : String),
        tok = "" ∨ c.data.lookup id = some tok → c.Update id tok = c)
    ∧ (∀ (c : snapshotCache) (id tok : String), tok ≠ "" →
        ¬c.data.lookup id = some tok →
        c.Update id tok = ⟨c.path, mapInsertP c.data id tok, true⟩)
    ∧ (∀ c : snapshotCache, c.dirty = false → c.Save = (c, none))
    ∧ (∀ c : snapshotCache, c.dirty = true → c.path ≠ "" →
        c.Save = (⟨c.path, c.data, false⟩, some (c.path, c.data))) := by
  refine ⟨fun c id tok h => ?_, fun c id tok h1 h2 => ?_, fun c h => ?_, fun c h1 h2 => ?_⟩
  · rcases h with h | h
    · simp [snapshotCache.Update, h]
    · rw [snapshotCache.Update]
      by_cases he : tok = "" <;> simp [he, h]
  · simp [snapshotCache.Update, h1, h2]
  · rw [snapshotCache.Save]
    by_cases hp : c.path = "" <;> simp [hp, h]
  · simp [snapshotCache.Save, h1, h2]

/-- Witness for C5 at concrete caches. -/
theorem C5_update_save_invariant_witness :
    (snapshotCache.mk "p" [] false).Update "a" "" = ⟨"p", [], false⟩
      ∧ (snapshotCache.mk "p" [] true).Save = (⟨"p", [], false⟩, some ("p", [])) :=
  ⟨C5_update_save_invariant.1 ⟨"p", [], false⟩ "a" "" (Or.inl rfl),
   C5_update_save_invariant.2.2.2 ⟨"p", [], true⟩ rfl (by decide)⟩

/-- Owner sub-object of Go `playlistDetail`. -/
structure playlistOwner where
  ID : String
  DisplayName : String
deriving DecidableEq, Repr

/-- Image entry of Go `playlistDetail`. -/
structure playlistImage where
  URL : String
  Height : ℤ
  Width : ℤ
deriving DecidableEq, Repr

/-- Go `playlistDetail` (nested `Followers.Total` and `Tracks.Total`
flattened to single integer fields). -/
structure playlistDetail where
  ID : String
  Name : String
  Description : String
  Public : Bool
  Collaborative : Bool
  Owner : playlistOwner
  SnapshotID : String
  FollowersTotal : ℤ
  Images : List playlistImage
  TracksTotal : ℤ
deriving DecidableEq, Repr

/-- Artist entry of a Go `playlistTrackItem`. -/
structure trackArtist where
  ID : String
  Name : String
deriving DecidableEq, Repr

/-- Album entry of a Go `playlistTrackItem`. -/
structure trackAlbum where
  ID : String
  Name : String
deriving DecidableEq, Repr

/-- Track sub-object of a Go `playlistTrackItem`. -/
structure trackInfo where
  ID : String
  Name : String
  URI : String
  ExternalUrls : List (String × String)
  Artists : List trackArtist
  Album : trackAlbum
deriving DecidableEq, Repr

/-- Go `playlistTrackItem` (`AddedBy.ID` flattened). -/
structure playlistTrackItem where
  AddedAt : String
  AddedByID : String
  Track : trackInfo
deriving DecidableEq, Repr

/-- Go `relevanceResult`; `float64` fields over `ℚ`. -/
structure relevanceResult where
  Score : ℚ
  KeywordMatches : List String
  ArtistMatches : List String
  TrackMatches : List String
  FreshnessDays : ℤ
  FollowerBoost : ℚ
  FreshnessBoost : ℚ
deriving DecidableEq, Repr

/-- Go `seedIndex`; the Go maps become association lists under
`mapInsertP`/`List.lookup`. -/
structure seedIndex where
  keywords : List String
  artistByName : List (String × seedArtist)
  artistByID : List (String × seedArtist)
  trackByID : List (String × seedTrack)
deriving DecidableEq, Repr

/-- The `addKeyword` closure of `buildSeedIndex`:
`strings.TrimSpace(strings.ToLower(value))`, dropped when empty. -/
def addKeywordK (ks : List String) (v : String) : List String :=
  let w := trimS (toLowerS v)
  if w = "" then ks else ks ++ [w]

/-- Go `buildSeedIndex` on a non-nil seed set. -/
def buildSeedIndex (seeds : harvestSeeds) : seedIndex :=
  let idx0 : seedIndex :=
    ⟨(seeds.Keywords ++ seeds.Genres ++ seeds.Moods ++ seeds.Meta ++ seeds.Locales).foldl
        addKeywordK [], [], [], []⟩
  let idx1 := seeds.Tracks.foldl (fun idx track =>
    { idx with
      trackByID :=
        if track.ID ≠ "" then mapInsertP idx.trackByID track.ID track else idx.trackByID,
      keywords := addKeywordK idx.keywords track.Name }) idx0
  seeds.Artists.foldl (fun idx artist =>
    let idxA := { idx with
      artistByID :=
        if artist.SpotifyID ≠ "" then
          mapInsertP idx.artistByID (toLowerS artist.SpotifyID) artist
        else idx.artistByID,
      keywords := addKeywordK idx.keywords artist.Name }
    let idxB := { idxA with
      artistByName := mapInsertP idxA.artistByName (toLowerS artist.Name) artist }
    artist.Aliases.foldl (fun idx al =>
      { idx with
        artistByName := mapInsertP idx.artistByName (toLowerS al) artist,
        keywords := addKeywordK idx.keywords al }) idxB) idx1

/-- `sub` occurs as a contiguous run inside the list. -/
def infixAux (sub : List Char) : List Char → Bool
  | [] => sub.isEmpty
  | c :: rest => sub.isPrefixOf (c :: rest) || infixAux sub rest

/-- Go `strings.Contains text sub` at character level. -/
def containsSub (text sub : String) : Bool := infixAux sub.data text.data

/-- Ascending insertion (strings compared as Go compares them:
lexicographically, which on valid UTF-8 agrees with byte order). -/
def insertStr (x : String) : List String → List String
  | [] => [x]
  | y :: ys => if x < y then x :: y :: ys else y :: insertStr x ys

/-- Insertion sort for strings. -/
def sortStrs (l : List String) : List String := l.foldr insertStr []

/-- Go `setToSortedSlice`: the distinct collected match names in
ascending order (map keys, then `sort.Strings`). -/
def setToSortedSlice (l : List String) : List String := sortStrs l.dedup

/-- The `latest` accumulator of `computeRelevance`: fold of
`t.After(latest)` updates over the parsed `added_at` stamps, starting
from the zero time.  Times are rationals in hours; `parseT` is the
uninterpreted RFC3339 parse (`none` = parse error). -/
def latestAdded (parseT : String → Option ℚ) (items : List playlistTrackItem) : ℚ :=
  items.foldl (fun acc item =>
    if item.AddedAt ≠ "" then
      match parseT item.AddedAt with
      | some t => if acc < t then t else acc
      | none => acc
    else acc) 0

/-- Go `math.Round`: round half away from zero. -/
def roundHalfAway (q : ℚ) : ℤ := if q < 0 then -⌊-q + 1/2⌋ else ⌊q + 1/2⌋

/-- The freshness block of `computeRelevance`: given the clock and the
latest parsed added-at stamp (0 = zero time), the pair of
`freshnessDays` and `freshnessBoost`. -/
def freshPair (now latest : ℚ) : ℤ × ℚ :=
  if latest = 0 then (-1, 0)
  else
    let days0 := (now - latest) / 24
    let days := if days0 < 0 then 0 else days0
    (roundHalfAway days, if days < 30 then (30 - days) / 30 * 2 else 0)

/-- Go `computeRelevance` on non-nil detail and index.  `log10` is the
uninterpreted `math.Log10`; `now` the clock reading in hours. -/
def computeRelevance (log10 : ℚ → ℚ) (parseT : String → Option ℚ) (now : ℚ)
    (detail : playlistDetail) (tracks : List playlistTrackItem) (idx : seedIndex) :
    relevanceResult :=
  let text := toLowerS (detail.Name ++ " " ++ detail.Description)
  let keywordList :=
    setToSortedSlice (idx.keywords.filter (fun kw => kw ≠ "" && containsSub text kw))
  let trackList := setToSortedSlice (tracks.flatMap (fun item =>
    if item.Track.ID ≠ "" then
      match idx.trackByID.lookup item.Track.ID with
      | some track => [track.Name]
      | none => []
    else []))
  let artistList := setToSortedSlice (tracks.flatMap (fun item =>
    item.Track.Artists.flatMap (fun artist =>
      (if artist.ID ≠ "" then
        match idx.artistByID.lookup (toLowerS artist.ID) with
        | some sa => [sa.Name]
        | none => []
      else [])
      ++ (match idx.artistByName.lookup (toLowerS artist.Name) with
          | some sa => [sa.Name]
          | none => []))))
  let latest := latestAdded parseT tracks
  let followerBoost := log10 ((detail.FollowersTotal : ℚ) + 1)
  let fresh := freshPair now latest
  let score := (keywordList.length : ℚ) * 1 + (artistList.length : ℚ) * (3 / 2)
      + (trackList.length : ℚ) * 2 + followerBoost * (1 / 2) + fresh.2
  ⟨score, keywordList, artistList, trackList, fresh.1, followerBoost, fresh.2⟩

/-- C6: if no added-at stamp parses, freshness days is −1 and the boost
is 0; otherwise, with days the (clamped-at-zero) hours-since-latest
divided by 24, freshness days is its half-up rounding and the boost is
((30 − days)/30)·2 when days < 30 and 0 otherwise; the boost is 0 at 30
days old (720 hours) or older, never negative, at most 2, and exactly 2
as the latest stamp reaches the present. -/
theorem C6_freshness (log10 : ℚ → ℚ) (parseT : String → Option ℚ) (now : ℚ)
    (detail : playlistDetail) (tracks : List playlistTrackItem) (idx : seedIndex) :
    (latestAdded parseT tracks = 0 →
        (computeRelevance log10 parseT now detail tracks idx).FreshnessDays = -1
      ∧ (computeRelevance log10 parseT now detail tracks idx).FreshnessBoost = 0)
    ∧ (∀ days : ℚ, latestAdded parseT tracks ≠ 0 →
        days = (if (now - latestAdded parseT tracks) / 24 < 0 then 0
                else (now - latestAdded parseT tracks) / 24) →
          (computeRelevance log10 parseT now detail tracks idx).FreshnessDays
              = roundHalfAway days
        ∧ (computeRelevance log10 parseT now detail tracks idx).FreshnessBoost
              = (if days < 30 then (30 - days) / 30 * 2 else 0))
    ∧ (latestAdded parseT tracks ≠ 0 → 720 ≤ now - latestAdded parseT tracks →
        (computeRelevance log10 parseT now detail tracks idx).FreshnessBoost = 0)
    ∧ 0 ≤ (computeRelevance log10 parseT now detail tracks idx).FreshnessBoost
    ∧ (computeRelevance log10 parseT now detail tracks idx).FreshnessBoost ≤ 2
    ∧ (latestAdded parseT tracks ≠ 0 → now ≤ latestAdded parseT tracks →
        (computeRelevance log10 parseT now detail tracks idx).FreshnessBoost = 2) := by
  have rD : (computeRelevance log10 parseT now detail tracks idx).FreshnessDays
      = (freshPair now (latestAdded parseT tracks)).1 := rfl
  have rB : (computeRelevance log10 parseT now detail tracks idx).FreshnessBoost
      = (freshPair now (latestAdded parseT tracks)).2 := rfl
  rw [rD, rB]
  refine ⟨fun h => by simp [freshPair, h], fun days hL hdays => ?_, fun hL h720 => ?_,
    ?_, ?_, fun hL hle => ?_⟩
  · subst hdays
    simp [freshPair, hL]
  · rw [freshPair, if_neg hL]
    have hd0 : ¬((now - latestAdded parseT tracks) / 24 < 0) := by
      intro h
      have : now - latestAdded parseT tracks < 0 := by linarith [h]
      linarith
    simp only [if_neg hd0]
    have : ¬((now - latestAdded parseT tracks) / 24 < 30) := by
      intro h
      have : now - latestAdded parseT tracks < 720 := by linarith
      linarith
    simp [this]
  · rw [freshPair]
    by_cases hL : latestAdded parseT tracks = 0
    · simp [hL]
    · rw [if_neg hL]
      simp only
      by_cases hd0 : (now - latestAdded parseT tracks) / 24 < 0
      · simp only [if_pos hd0]
        norm_num
      · simp only [if_neg hd0]
        by_cases h30 : (now - latestAdded parseT tracks) / 24 < 30
        · rw [if_pos h30]
          have : 0 ≤ 30 - (now - latestAdded parseT tracks) / 24 := by linarith
          linarith
        · rw [if_neg h30]
  · rw [freshPair]
    by_cases hL : latestAdded parseT tracks = 0
    · simp [hL]
    · rw [if_neg hL]
      simp only
      by_cases hd0 : (now - latestAdded parseT tracks) / 24 < 0
      · simp only [if_pos hd0]
        norm_num
      · simp only [if_neg hd0]
        push_neg at hd0
        by_cases h30 : (now - latestAdded parseT tracks) / 24 < 30
        · rw [if_pos h30]
          linarith
        · rw [if_neg h30]
          norm_num
  · rw [freshPair, if_neg hL]
    simp only
    have hd : (now - latestAdded parseT tracks) / 24 ≤ 0 := by
      have : now - latestAdded parseT tracks ≤ 0 := by linarith
      linarith
    by_cases hd0 : (now - latestAdded parseT tracks) / 24 < 0
    · simp only [if_pos hd0]
      norm_num
    · have hz : (now - latestAdded parseT tracks) / 24 = 0 := le_antisymm hd (not_lt.mp hd0)
      simp only [if_neg hd0, hz]
      norm_num

/-- Witness for C6: a concrete one-item track list whose stamp parses
to 10 (hours), scored at clock 34, is one day old: freshness days 1,
boost (29/30)·2. -/
theorem C6_freshness_witness :
    latestAdded (fun _ => some 10) [⟨"s", "u", ⟨"t", "T", "", [], [], ⟨"", ""⟩⟩⟩] ≠ 0
      ∧ (computeRelevance (fun _ => 0) (fun _ => some 10) 34
          ⟨"p", "", "", true, false, ⟨"", ""⟩, "s", 0, [], 0⟩
          [⟨"s", "u", ⟨"t", "T", "", [], [], ⟨"", ""⟩⟩⟩]
          ⟨[], [], [], []⟩).FreshnessDays = roundHalfAway 1 := by
  refine ⟨by decide, ?_⟩
  have hlat : latestAdded (fun _ => some 10)
      [⟨"s", "u", ⟨"t", "T", "", [], [], ⟨"", ""⟩⟩⟩] = 10 := by decide
  have h := (C6_freshness (fun _ => 0) (fun _ => some 10) 34
      ⟨"p", "", "", true, false, ⟨"", ""⟩, "s", 0, [], 0⟩
      [⟨"s", "u", ⟨"t", "T", "", [], [], ⟨"", ""⟩⟩⟩] ⟨[], [], [], []⟩).2.1 1 (by decide)
      (by rw [hlat]; norm_num)
  exact h.1

/-- The "Drake" seed artist of the end-to-end scoring scenario. -/
def drakeArtist : seedArtist := ⟨"Drake", ["drake"], "3TVXtAsR1Inumwj472S9r4", []⟩

/-- The seed track of the end-to-end scoring scenario. -/
def blTrack : seedTrack := ⟨"11dFghVXANMlKmJXsNCbNl", "Blinding Lights"⟩

/-- Scenario seed set: keyword "workout", artist "Drake", one track id. -/
def scSeeds : harvestSeeds := ⟨["workout"], [], [], [], [], [drakeArtist], [blTrack]⟩

/-- Scenario playlist: named "Workout Bangers 2024", empty description,
12,345 followers. -/
def scDetail : playlistDetail :=
  ⟨"pl1", "Workout Bangers 2024", "", true, false, ⟨"own", "Owner"⟩, "snap1", 12345, [], 1⟩

/-- Scenario track list: one item matching the seed track id and the
seed artist id, with no parseable added-at stamp. -/
def scTracks : List playlistTrackItem :=
  [⟨"", "u1", ⟨"11dFghVXANMlKmJXsNCbNl", "Blinding Lights", "uri", [],
    [⟨"3TVXtAsR1Inumwj472S9r4", "Drake"⟩], ⟨"alb", "Album"⟩⟩⟩]

/-- C2: the relevance score is 1.0·|keyword matches| + 1.5·|artist
matches| + 2.0·|track matches| + 0.5·log10(followers+1) + freshness
boost, for every input; and on the end-to-end scenario playlist the
scorer reports keyword matches ["workout"], artist matches ["Drake"],
track matches ["Blinding Lights"], and score
1.0 + 1.5 + 2.0 + 0.5·log10(12346). -/
theorem C2_computeRelevance_score :
    (∀ (log10 : ℚ → ℚ) (parseT : String → Option ℚ) (now : ℚ) (detail : playlistDetail)
        (tracks : List playlistTrackItem) (idx : seedIndex),
        (computeRelevance log10 parseT now detail tracks idx).Score
          = ((computeRelevance log10 parseT now detail tracks idx).KeywordMatches.length : ℚ) * 1
            + ((computeRelevance log10 parseT now detail tracks idx).ArtistMatches.length : ℚ)
                * (3 / 2)
            + ((computeRelevance log10 parseT now detail tracks idx).TrackMatches.length : ℚ) * 2
            + log10 ((detail.FollowersTotal : ℚ) + 1) * (1 / 2)
            + (computeRelevance log10 parseT now detail tracks idx).FreshnessBoost)
    ∧ ∀ (log10 : ℚ → ℚ) (parseT : String → Option ℚ) (now : ℚ),
        (computeRelevance log10 parseT now scDetail scTracks (buildSeedIndex scSeeds)).Score
            = 1 + 3 / 2 + 2 + 1 / 2 * log10 12346
          ∧ (computeRelevance log10 parseT now scDetail scTracks
              (buildSeedIndex scSeeds)).KeywordMatches = ["workout"]
          ∧ (computeRelevance log10 parseT now scDetail scTracks
              (buildSeedIndex scSeeds)).ArtistMatches = ["Drake"]
          ∧ (computeRelevance log10 parseT now scDetail scTracks
              (buildSeedIndex scSeeds)).TrackMatches = ["Blinding Lights"]
          ∧ (computeRelevance log10 parseT now scDetail scTracks
              (buildSeedIndex scSeeds)).FreshnessBoost = 0 := by
  have hgen : ∀ (log10 : ℚ → ℚ) (parseT : String → Option ℚ) (now : ℚ)
      (detail : playlistDetail) (tracks : List playlistTrackItem) (idx : seedIndex),
      (computeRelevance log10 parseT now detail tracks idx).Score
        = ((computeRelevance log10 parseT now detail tracks idx).KeywordMatches.length : ℚ) * 1
          + ((computeRelevance log10 parseT now detail tracks idx).ArtistMatches.length : ℚ)
              * (3 / 2)
          + ((computeRelevance log10 parseT now detail tracks idx).TrackMatches.length : ℚ) * 2
          + log10 ((detail.FollowersTotal : ℚ) + 1) * (1 / 2)
          + (computeRelevance log10 parseT now detail tracks idx).FreshnessBoost :=
    fun _ _ _ _ _ _ => rfl
  refine ⟨hgen, fun log10 parseT now => ?_⟩
  have hK : (computeRelevance log10 parseT now scDetail scTracks
      (buildSeedIndex scSeeds)).KeywordMatches = ["workout"] := by
    exact (by decide : (computeRelevance (fun _ => 0) (fun _ => none) 0 scDetail scTracks
      (buildSeedIndex scSeeds)).KeywordMatches = ["workout"])
  have hA : (computeRelevance log10 parseT now scDetail scTracks
      (buildSeedIndex scSeeds)).ArtistMatches = ["Drake"] := by
    exact (by decide : (computeRelevance (fun _ => 0) (fun _ => none) 0 scDetail scTracks
      (buildSeedIndex scSeeds)).ArtistMatches = ["Drake"])
  have hT : (computeRelevance log10 parseT now scDetail scTracks
      (buildSeedIndex scSeeds)).TrackMatches = ["Blinding Lights"] := by
    exact (by decide : (computeRelevance (fun _ => 0) (fun _ => none) 0 scDetail scTracks
      (buildSeedIndex scSeeds)).TrackMatches = ["Blinding Lights"])
  have hF : (computeRelevance log10 parseT now scDetail scTracks
      (buildSeedIndex scSeeds)).FreshnessBoost = 0 := by
    exact (by decide : (computeRelevance (fun _ => 0) (fun _ => none) 0 scDetail scTracks
      (buildSeedIndex scSeeds)).FreshnessBoost = 0)
  refine ⟨?_, hK, hA, hT, hF⟩
  have hs := hgen log10 parseT now scDetail scTracks (buildSeedIndex scSeeds)
  rw [hK, hA, hT, hF] at hs
  have h1 : ((scDetail.FollowersTotal : ℚ) + 1) = 12346 := by norm_num [scDetail]
  rw [h1] at hs
  rw [hs]
  norm_num
  ring

/-- Pass 1 of Go `sanitizeCSVField`: `ReplaceAll "\r\n" " "`
(left-to-right, non-overlapping). -/
def stripCRLF : List Char → List Char
  | '\r' :: '\n' :: rest => ' ' :: stripCRLF rest
  | c :: rest => c :: stripCRLF rest
  | [] => []

/-- Pass 2: `ReplaceAll "\n" " "` (single-character replace is a map). -/
def mapLF (l : List Char) : List Char := l.map (fun c => if c = '\n' then ' ' else c)

/-- Pass 3: `ReplaceAll "\r" " "`. -/
def mapCR (l : List Char) : List Char := l.map (fun c => if c = '\r' then ' ' else c)

/-- Go `sanitizeCSVField`: the three replace passes, then `TrimSpace`. -/
def sanitizeCSVField (s : String) : String := ⟨trimChars (mapCR (mapLF (stripCRLF s.data)))⟩

/-- Go `strconv.FormatBool`. -/
def formatBool (b : Bool) : String := if b then "true" else "false"

/-- Go `strings.Join` with a separator. -/
def joinSep (sep : String) : List String → String
  | [] => ""
  | [x] => x
  | x :: xs => x ++ sep ++ joinSep sep xs

/-- Go `selectImageURL`: first image's URL, or "". -/
def selectImageURL : List playlistImage → String
  | [] => ""
  | img :: _ => img.URL

/-- Go `harvestOrigin`. -/
structure harvestOrigin where
  Source : String
  Query : String
deriving DecidableEq, Repr

/-- Go `harvestOptions`. -/
structure harvestOptions where
  ScoreThreshold : ℚ
  MaxSearchPages : ℤ
  MaxBrowsePages : ℤ
  IncludeFeatured : Bool
  IncludeCategories : Bool
deriving DecidableEq, Repr

/-- The CSV row built by Go `harvester.persistPlaylist` (on non-nil
detail).  `fmtF` is the uninterpreted `fmt.Sprintf("%.2f", ·)` and
`nowStr` the formatted `time.Now().UTC()`. -/
def playlistRecord (fmtF : ℚ → String) (nowStr : String) (detail : playlistDetail)
    (origin : harvestOrigin) (relevance : relevanceResult) : List String :=
  [detail.ID,
   detail.Name,
   sanitizeCSVField detail.Description,
   toString detail.FollowersTotal,
   formatBool detail.Public,
   formatBool detail.Collaborative,
   detail.Owner.ID,
   detail.Owner.DisplayName,
   origin.Source,
   origin.Query,
   fmtF relevance.Score,
   joinSep "|" relevance.KeywordMatches,
   joinSep "|" relevance.ArtistMatches,
   joinSep "|" relevance.TrackMatches,
   detail.SnapshotID,
   selectImageURL detail.Images,
   toString detail.TracksTotal,
   toString relevance.FreshnessDays,
   nowStr]

/-- The CSV rows built by Go `harvester.persistTracks`: one row per item
with a non-empty track id. -/
def trackRecords (playlistID : String) (items : List playlistTrackItem)
    (origin : harvestOrigin) : List (List String) :=
  items.flatMap (fun item =>
    if item.Track.ID = "" then []
    else
      [[playlistID,
        item.Track.ID,
        item.Track.Name,
        joinSep "|" (item.Track.Artists.map (fun a => a.Name)),
        item.Track.Album.ID,
        item.AddedAt,
        item.AddedByID,
        (item.Track.ExternalUrls.lookup "spotify").getD "",
        origin.Source,
        origin.Query]])

/-- The I/O environment of one `processPlaylist` call: the abstract
library functions and the two fetch endpoints (`Except.error` = fetch
or decode failure). -/
structure harvestEnv where
  log10 : ℚ → ℚ
  parseT : String → Option ℚ
  now : ℚ
  nowStr : String
  fmtF : ℚ → String
  getPlaylist : String → Except String playlistDetail
  getTracks : String → Except String (List playlistTrackItem)

/-- The mutable harvester state touched by `processPlaylist`: the
seen-id set, the snapshot cache (`none` = nil pointer), and the two
append-only CSV sinks as row lists. -/
structure harvestState where
  seen : List String
  snapshots : Option snapshotCache
  playlistRows : List (List String)
  trackRows : List (List String)
deriving DecidableEq, Repr

/-- Observable calls made during `processPlaylist`, in order: the two
fetches, the relevance computation, and the two persistence writes. -/
inductive fetchEff where
  | getPlaylist (id : String)
  | getTracks (id : String)
  | score (id : String)
  | persistPlaylist (id : String)
  | persistTracks (id : String)
deriving DecidableEq, Repr

/-- Go `harvester.processPlaylist`: returns the new state, the ordered
effect trace, and the error (if any). -/
def processPlaylist (env : harvestEnv) (opts : harvestOptions) (idx : seedIndex)
    (st : harvestState) (playlistID : String) (origin : harvestOrigin) :
    harvestState × List fetchEff × Option String :=
  if playlistID = "" then (st, [], none)
  else if playlistID ∈ st.seen then (st, [], none)
  else
    let st1 : harvestState := { st with seen := playlistID :: st.seen }
    match env.getPlaylist playlistID with
    | .error e => (st1, [.getPlaylist playlistID], some ("get playlist: " ++ e))
    | .ok detail =>
      if (match st1.snapshots with
          | some c => c.IsUnchanged playlistID detail.SnapshotID
          | none => false) then
        (st1, [.getPlaylist playlistID], none)
      else
        match env.getTracks playlistID with
        | .error e =>
          (st1, [.getPlaylist playlistID, .getTracks playlistID], some ("get tracks: " ++ e))
        | .ok tracks =>
          let relevance := computeRelevance env.log10 env.parseT env.now detail tracks idx
          let st2 : harvestState :=
            { st1 with snapshots := updateOpt st1.snapshots playlistID detail.SnapshotID }
          if relevance.Score < opts.ScoreThreshold then
            (st2, [.getPlaylist playlistID, .getTracks playlistID, .score playlistID], none)
          else
            ({ st2 with
                playlistRows := st2.playlistRows
                  ++ [playlistRecord env.fmtF env.nowStr detail origin relevance],
                trackRows := st2.trackRows ++ trackRecords detail.ID tracks origin },
             [.getPlaylist playlistID, .getTracks playlistID, .score playlistID,
              .persistPlaylist playlistID, .persistTracks playlistID],
             none)

/-- Defining equation of the score (shared helper). -/
theorem score_eq (log10 : ℚ → ℚ) (parseT : String → Option ℚ) (now : ℚ)
    (detail : playlistDetail) (tracks : List playlistTrackItem) (idx : seedIndex) :
    (computeRelevance log10 parseT now detail tracks idx).Score
      = ((computeRelevance log10 parseT now detail tracks idx).KeywordMatches.length : ℚ) * 1
        + ((computeRelevance log10 parseT now detail tracks idx).ArtistMatches.length : ℚ)
            * (3 / 2)
        + ((computeRelevance log10 parseT now detail tracks idx).TrackMatches.length : ℚ) * 2
        + log10 ((detail.FollowersTotal : ℚ) + 1) * (1 / 2)
        + (computeRelevance log10 parseT now detail tracks idx).FreshnessBoost := rfl

/-- C3: when the snapshot cache reports the fetched version token
unchanged, `processPlaylist` stops right after the detail fetch: no
track fetch, no scoring, no persistence, and no state change other than
marking the id seen. -/
theorem C3_unchanged_skips_all (env : harvestEnv) (opts : harvestOptions) (idx : seedIndex)
    (st : harvestState) (playlistID : String) (origin : harvestOrigin)
    (detail : playlistDetail) (c : snapshotCache)
    (hid : playlistID ≠ "") (hseen : playlistID ∉ st.seen)
    (hdet : env.getPlaylist playlistID = .ok detail)
    (hc : st.snapshots = some c)
    (hunch : c.IsUnchanged playlistID detail.SnapshotID = true) :
    processPlaylist env opts idx st playlistID origin
      = ({ st with seen := playlistID :: st.seen }, [.getPlaylist playlistID], none) := by
  rw [processPlaylist, if_neg hid, if_neg hseen, hdet]
  simp only [hc, hunch, if_pos]

/-- Concrete run for the C3 witness: one cached id whose token matches. -/
def env3 : harvestEnv :=
  ⟨fun _ => 0, fun _ => none, 0, "t0", fun _ => "0.00",
   fun _ => .ok ⟨"id1", "N", "", true, false, ⟨"o", "O"⟩, "tok", 0, [], 0⟩,
   fun _ => .ok []⟩

/-- Harvest options used by the concrete witnesses. -/
def opts0 : harvestOptions := ⟨5 / 2, 6, 2, true, true⟩

/-- Witness for C3: with the cache holding ("id1", "tok") and the fetch
returning token "tok", the call only marks the id seen. -/
theorem C3_unchanged_skips_all_witness :
    processPlaylist env3 opts0 ⟨[], [], [], []⟩
        ⟨[], some ⟨"p", [("id1", "tok")], false⟩, [], []⟩ "id1" ⟨"src", "q"⟩
      = (⟨["id1"], some ⟨"p", [("id1", "tok")], false⟩, [], []⟩,
         [.getPlaylist "id1"], none) :=
  C3_unchanged_skips_all env3 opts0 ⟨[], [], [], []⟩
    ⟨[], some ⟨"p", [("id1", "tok")], false⟩, [], []⟩ "id1" ⟨"src", "q"⟩
    ⟨"id1", "N", "", true, false, ⟨"o", "O"⟩, "tok", 0, [], 0⟩
    ⟨"p", [("id1", "tok")], false⟩
    (by decide) (by decide) rfl rfl (by decide)

/-- C8: a playlist that reaches scoring but falls below the threshold
still gets its snapshot token recorded; nothing is persisted to either
store and no error is returned. -/
theorem C8_below_threshold_updates_cache (env : harvestEnv) (opts : harvestOptions)
    (idx : seedIndex) (st : harvestState) (playlistID : String) (origin : harvestOrigin)
    (detail : playlistDetail) (tracks : List playlistTrackItem)
    (hid : playlistID ≠ "") (hseen : playlistID ∉ st.seen)
    (hdet : env.getPlaylist playlistID = .ok detail)
    (hunch : (match st.snapshots with
              | some c => c.IsUnchanged playlistID detail.SnapshotID
              | none => false) = false)
    (htr : env.getTracks playlistID = .ok tracks)
    (hscore : (computeRelevance env.log10 env.parseT env.now detail tracks idx).Score
        < opts.ScoreThreshold) :
    processPlaylist env opts idx st playlistID origin
      = (⟨playlistID :: st.seen, updateOpt st.snapshots playlistID detail.SnapshotID,
          st.playlistRows, st.trackRows⟩,
         [.getPlaylist playlistID, .getTracks playlistID, .score playlistID], none) := by
  rw [processPlaylist, if_neg hid, if_neg hseen, hdet]
  simp only [hunch, Bool.false_eq_true, if_false, htr, if_pos hscore]

/-- The playlist detail fetched in the concrete C8 witness run. -/
def detail8 : playlistDetail := ⟨"id1", "N", "", true, false, ⟨"o", "O"⟩, "tok", 0, [], 0⟩

/-- The empty seed index used by the concrete witnesses. -/
def idxE : seedIndex := ⟨[], [], [], []⟩

/-- Concrete environment for the C8 witness: empty seed index, zero
log10, so the score is 0 < 5/2. -/
def env8 : harvestEnv :=
  ⟨fun _ => 0, fun _ => none, 0, "t0", fun _ => "0.00",
   fun _ => .ok detail8, fun _ => .ok []⟩

/-- Witness for C8 at a concrete run with an empty cache. -/
theorem C8_below_threshold_updates_cache_witness :
    processPlaylist env8 opts0 idxE ⟨[], some ⟨"p", [], false⟩, [], []⟩ "id1" ⟨"src", "q"⟩
      = (⟨["id1"], updateOpt (some ⟨"p", [], false⟩) "id1" "tok", [], []⟩,
         [.getPlaylist "id1", .getTracks "id1", .score "id1"], none) :=
  C8_below_threshold_updates_cache env8 opts0 idxE
    ⟨[], some ⟨"p", [], false⟩, [], []⟩ "id1" ⟨"src", "q"⟩ detail8 []
    (by decide) (by decide) rfl (by decide) rfl
    (by
      rw [score_eq]
      have hK : (computeRelevance env8.log10 env8.parseT env8.now
          detail8 [] idxE).KeywordMatches = [] := by
        exact (by decide : (computeRelevance (fun _ => 0) (fun _ => none) 0
          detail8 [] idxE).KeywordMatches = [])
      have hA : (computeRelevance env8.log10 env8.parseT env8.now
          detail8 [] idxE).ArtistMatches = [] := by
        exact (by decide : (computeRelevance (fun _ => 0) (fun _ => none) 0
          detail8 [] idxE).ArtistMatches = [])
      have hT : (computeRelevance env8.log10 env8.parseT env8.now
          detail8 [] idxE).TrackMatches = [] := by
        exact (by decide : (computeRelevance (fun _ => 0) (fun _ => none) 0
          detail8 [] idxE).TrackMatches = [])
      have hF : (computeRelevance env8.log10 env8.parseT env8.now
          detail8 [] idxE).FreshnessBoost = 0 := by
        exact (by decide : (computeRelevance (fun _ => 0) (fun _ => none) 0
          detail8 [] idxE).FreshnessBoost = 0)
      have hL : env8.log10 ((detail8.FollowersTotal : ℚ) + 1) = 0 := rfl
      rw [hK, hA, hT, hF, hL]
      norm_num [opts0])

/-- Elements of `mapLF` are never a line feed. -/
theorem mapLF_no_newline (l : List Char) : '\n' ∉ mapLF l := by
  intro h
  obtain ⟨x, _, hfx⟩ := List.mem_map.mp h
  by_cases hx : x = '\n' <;> simp [hx] at hfx

/-- Elements of `mapCR` are never a carriage return. -/
theorem mapCR_no_cr (l : List Char) : '\r' ∉ mapCR l := by
  intro h
  obtain ⟨x, _, hfx⟩ := List.mem_map.mp h
  by_cases hx : x = '\r' <;> simp [hx] at hfx

/-- `mapCR` introduces no line feed. -/
theorem mapCR_no_newline (l : List Char) (h : '\n' ∉ l) : '\n' ∉ mapCR l := by
  intro hmem
  obtain ⟨x, hx, hfx⟩ := List.mem_map.mp hmem
  by_cases hcr : x = '\r'
  · simp [hcr] at hfx
  · simp only [if_neg hcr] at hfx
    exact h (hfx ▸ hx)

/-- Trimming only removes characters. -/
theorem trimChars_subset (l : List Char) : ∀ c ∈ trimChars l, c ∈ l := by
  intro c hc
  simp only [trimChars, List.mem_reverse] at hc
  have h1 := (List.dropWhile_sublist (l := (l.dropWhile goIsSpace).reverse)
      (p := goIsSpace)).subset hc
  rw [List.mem_reverse] at h1
  exact (List.dropWhile_sublist (l := l) (p := goIsSpace)).subset h1

/-- `sanitizeCSVField` never emits a line feed or a carriage return. -/
theorem sanitize_no_break (s : String) :
    '\n' ∉ (sanitizeCSVField s).data ∧ '\r' ∉ (sanitizeCSVField s).data := by
  refine ⟨fun h => ?_, fun h => ?_⟩
  · exact mapCR_no_newline _ (mapLF_no_newline _) (trimChars_subset _ _ h)
  · exact mapCR_no_cr _ (trimChars_subset _ _ h)

/-- A playlist whose name carries a raw newline, for the C9
counterexample. -/
def badDetail : playlistDetail :=
  ⟨"pl2", "Line1\nLine2", "", true, false, ⟨"o", "O"⟩, "s", 0, [], 0⟩

/-- A neutral relevance result used by the persistence examples. -/
def rel0 : relevanceResult := ⟨0, [], [], [], -1, 0, 0⟩

/-- C9 counterexample: the persisted playlist record writes the name
field verbatim, so a name containing a raw newline reaches the store
unsanitized — not every text field is sanitized. -/
theorem C9_cex_name_not_sanitized :
    (playlistRecord (fun _ => "0.00") "t0" badDetail ⟨"src", "q"⟩ rel0).get? 1
        = some "Line1\nLine2"
      ∧ '\n' ∈ "Line1\nLine2".data :=
  ⟨rfl, by decide⟩

/-- C9 (amended): only the description field of the persisted playlist
record passes through `sanitizeCSVField` (newlines and carriage returns
replaced by a space, then trimmed); in particular the persisted
description never contains a raw newline; the remaining text fields are
written as-is. -/
theorem C9_description_sanitized (fmtF : ℚ → String) (nowStr : String)
    (detail : playlistDetail) (origin : harvestOrigin) (relevance : relevanceResult) :
    (playlistRecord fmtF nowStr detail origin relevance).get? 2
        = some (sanitizeCSVField detail.Description)
      ∧ (playlistRecord fmtF nowStr detail origin relevance).get? 1 = some detail.Name
      ∧ ∀ s : String, '\n' ∉ (sanitizeCSVField s).data :=
  ⟨rfl, rfl, fun s => (sanitize_no_break s).1⟩

/-- Witness for C9 at a concrete description with a newline. -/
theorem C9_description_sanitized_witness :
    (playlistRecord (fun _ => "0.00") "t0"
        ⟨"p", "N", " a\nb ", true, false, ⟨"o", "O"⟩, "s", 0, [], 0⟩
        ⟨"src", "q"⟩ rel0).get? 2 = some (sanitizeCSVField " a\nb ")
      ∧ '\n' ∉ (sanitizeCSVField " a\nb ").data :=
  ⟨(C9_description_sanitized (fun _ => "0.00") "t0"
      ⟨"p", "N", " a\nb ", true, false, ⟨"o", "O"⟩, "s", 0, [], 0⟩ ⟨"src", "q"⟩ rel0).1,
   (C9_description_sanitized (fun _ => "0.00") "t0"
      ⟨"p", "N", " a\nb ", true, false, ⟨"o", "O"⟩, "s", 0, [], 0⟩ ⟨"src", "q"⟩ rel0).2.2 " a\nb "⟩

/-- C10: `Update` on a nil cache is a safe no-op; `Save` with an empty
path touches nothing; and with no snapshot cache configured,
`processPlaylist` still runs to completion — successful fetches yield
no error and the cache stays absent (`IsUnchanged` is only reached
under the non-nil guard, which fails). -/
theorem C10_nil_cache_safety :
    (∀ id tok : String, updateOpt none id tok = none)
    ∧ (∀ c : snapshotCache, c.path = "" → c.Save = (c, none))
    ∧ ∀ (env : harvestEnv) (opts : harvestOptions) (idx : seedIndex) (st : harvestState)
        (playlistID : String) (origin : harvestOrigin) (detail : playlistDetail)
        (tracks : List playlistTrackItem),
        st.snapshots = none →
        env.getPlaylist playlistID = .ok detail →
        env.getTracks playlistID = .ok tracks →
        (processPlaylist env opts idx st playlistID origin).2.2 = none
          ∧ (processPlaylist env opts idx st playlistID origin).1.snapshots = none := by
  refine ⟨fun id tok => rfl, fun c hc => by simp [snapshotCache.Save, hc], ?_⟩
  intro env opts idx st playlistID origin detail tracks hnil hdet htr
  rw [processPlaylist]
  by_cases hid : playlistID = ""
  · simp [hid, hnil]
  · rw [if_neg hid]
    by_cases hseen : playlistID ∈ st.seen
    · simp [hseen, hnil]
    · rw [if_neg hseen, hdet]
      simp only [hnil, htr]
      by_cases hscore : (computeRelevance env.log10 env.parseT env.now detail tracks
          idx).Score < opts.ScoreThreshold
      · simp [hscore, updateOpt]
      · simp [hscore, updateOpt]

/-- Witness for C10: the nil-cache run of the C8 environment completes
without error and without materializing a cache. -/
theorem C10_nil_cache_safety_witness :
    (processPlaylist env8 opts0 idxE ⟨[], none, [], []⟩ "id1" ⟨"src", "q"⟩).2.2 = none
      ∧ (processPlaylist env8 opts0 idxE ⟨[], none, [], []⟩ "id1" ⟨"src", "q"⟩).1.snapshots
          = none :=
  C10_nil_cache_safety.2.2 env8 opts0 idxE ⟨[], none, [], []⟩ "id1" ⟨"src", "q"⟩
    detail8 [] rfl rfl rfl

/-- An HTTP response as seen by `execute`: status code and the two
retry headers (Go's `Header.Get` yields "" when absent). -/
structure httpResp where
  status : ℕ
  retryAfterHdr : String
  retryAfterMsHdr : String
  body : String
deriving DecidableEq, Repr

/-- Digit-string accumulator of `strconv.Atoi`. -/
def digitsCore : List Char → ℕ → Option ℕ
  | [], acc => some acc
  | c :: cs, acc => if c.isDigit then digitsCore cs (acc * 10 + (c.toNat - 48)) else none

/-- Go `strconv.Atoi` (optional sign then digits; overflow not
modelled, the values in play are small). -/
def atoi (s : String) : Option ℤ :=
  match s.data with
  | [] => none
  | '+' :: rest => if rest = [] then none else (digitsCore rest 0).map Int.ofNat
  | '-' :: rest => if rest = [] then none else (digitsCore rest 0).map (fun n => -(n : ℤ))
  | l => (digitsCore l 0).map Int.ofNat

/-- Go `parseRetryAfter` over durations in seconds (ℚ); `p1123` is the
uninterpreted RFC1123 date parse and `now` the clock, in seconds.  An
integer `Retry-After` gives seconds; a date gives the clamped time
until it; otherwise `Retry-After-Ms` gives milliseconds; else 0. -/
def parseRetryAfter (p1123 : String → Option ℚ) (now : ℚ) (r : httpResp) : ℚ :=
  let msPart : ℚ :=
    if r.retryAfterMsHdr ≠ "" then
      match atoi r.retryAfterMsHdr with
      | some ms => (ms : ℚ) / 1000
      | none => 0
    else 0
  if r.retryAfterHdr ≠ "" then
    match atoi r.retryAfterHdr with
    | some secs => (secs : ℚ)
    | none =>
      match p1123 r.retryAfterHdr with
      | some t => if t - now < 0 then 0 else t - now
      | none => msPart
  else msPart

/-- Outcome of one issued request. -/
inductive attemptOutcome where
  | transport (msg : String)
  | resp (r : httpResp)
deriving DecidableEq, Repr

/-- Environment of one loop iteration: whether the context is already
done at the rate-gate wait, the request outcome, and whether the
context is done at the backoff sleep. -/
structure attemptEnv where
  cancelAtGate : Bool
  outcome : attemptOutcome
  cancelAtBackoff : Bool
deriving DecidableEq, Repr

/-- Observable actions of the `execute` loop. -/
inductive execAct where
  | request (k : ℕ)
  | sleep (d : ℚ)
deriving DecidableEq, Repr

/-- What `execute` surfaces to its caller. -/
inductive execResult where
  | ok (r : httpResp)
  | err (msg : String)
  | canceled
  | fuelOut
deriving DecidableEq, Repr

/-- Go `spotifyClient.execute` as a fuel-indexed loop on attempt
numbers: wait at the rate gate (a cancellation point), issue the
request; a 429 response sleeps the retry-after duration (default 2s
when the parsed wait is ≤ 0) at a second cancellation point and
retries; other error statuses surface as errors; otherwise return the
response. -/
def executeGo (p1123 : String → Option ℚ) (now : ℚ) (env : ℕ → attemptEnv) :
    ℕ → ℕ → execResult × List execAct
  | 0, _ => (.fuelOut, [])
  | fuel + 1, k =>
    if (env k).cancelAtGate then (.canceled, [])
    else
      match (env k).outcome with
      | .transport msg => (.err msg, [.request k])
      | .resp r =>
        if r.status = 429 then
          let w0 := parseRetryAfter p1123 now r
          let w := if w0 ≤ 0 then 2 else w0
          if (env k).cancelAtBackoff then (.canceled, [.request k])
          else
            let rest := executeGo p1123 now env fuel (k + 1)
            (rest.1, .request k :: .sleep w :: rest.2)
        else if 400 ≤ r.status then
          (.err ("status " ++ toString r.status), [.request k])
        else (.ok r, [.request k])

/-- C7: a 429 is never surfaced (a returned response has a status that
is neither 429 nor any error status); on a 429 the loop sleeps exactly
the parsed retry-after duration (default 2 seconds when the parse
yields a non-positive wait, which includes absent headers) and retries
the next attempt of the same request; and both the rate-gate wait and
the backoff sleep observe cancellation. -/
theorem C7_execute_backoff :
    (∀ (p1123 : String → Option ℚ) (now : ℚ) (env : ℕ → attemptEnv) (fuel k : ℕ)
        (r : httpResp),
        (executeGo p1123 now env fuel k).1 = .ok r → r.status ≠ 429 ∧ r.status < 400)
    ∧ (∀ (p1123 : String → Option ℚ) (now : ℚ) (env : ℕ → attemptEnv) (fuel k : ℕ)
        (r : httpResp),
        env k = ⟨false, .resp r, false⟩ → r.status = 429 →
        executeGo p1123 now env (fuel + 1) k
          = ((executeGo p1123 now env fuel (k + 1)).1,
             .request k
               :: .sleep (if parseRetryAfter p1123 now r ≤ 0 then 2
                    else parseRetryAfter p1123 now r)
               :: (executeGo p1123 now env fuel (k + 1)).2))
    ∧ (∀ (p1123 : String → Option ℚ) (now : ℚ) (r : httpResp),
        r.retryAfterHdr = "" → r.retryAfterMsHdr = "" → parseRetryAfter p1123 now r = 0)
    ∧ (∀ (p1123 : String → Option ℚ) (now : ℚ) (env : ℕ → attemptEnv) (fuel k : ℕ),
        (env k).cancelAtGate = true → executeGo p1123 now env (fuel + 1) k = (.canceled, []))
    ∧ (∀ (p1123 : String → Option ℚ) (now : ℚ) (env : ℕ → attemptEnv) (fuel k : ℕ)
        (r : httpResp),
        env k = ⟨false, .resp r, true⟩ → r.status = 429 →
        executeGo p1123 now env (fuel + 1) k = (.canceled, [.request k])) := by
  refine ⟨?_, ?_, ?_, ?_, ?_⟩
  · intro p1123 now env fuel
    induction fuel with
    | zero => intro k r h; simp [executeGo] at h
    | succ n ih =>
      intro k r h
      rw [executeGo] at h
      by_cases hg : (env k).cancelAtGate
      · simp [hg] at h
      · simp only [hg, Bool.false_eq_true, if_false] at h
        cases ho : (env k).outcome with
        | transport msg => simp [ho] at h
        | resp r2 =>
          simp only [ho] at h
          by_cases h429 : r2.status = 429
          · simp only [h429, if_pos rfl] at h
            by_cases hb : (env k).cancelAtBackoff
            · simp [hb] at h
            · simp only [hb, Bool.false_eq_true, if_false] at h
              exact ih (k + 1) r h
          · simp only [if_neg h429] at h
            by_cases herr : 400 ≤ r2.status
            · simp [herr] at h
            · simp only [if_neg herr] at h
              obtain rfl : r2 = r := by
                simpa using h
              exact ⟨h429, lt_of_not_le herr⟩
  · intro p1123 now env fuel k r henv h429
    rw [executeGo, henv]
    simp [h429]
  · intro p1123 now r h1 h2
    simp [parseRetryAfter, h1, h2]
  · intro p1123 now env fuel k hg
    rw [executeGo]
    simp [hg]
  · intro p1123 now env fuel k r henv h429
    rw [executeGo, henv]
    simp [h429]

/-- Concrete attempt sequence for the C7 witness: a 429 carrying
`Retry-After: 3`, then a 200. -/
def envC7 : ℕ → attemptEnv := fun k =>
  if k = 0 then ⟨false, .resp ⟨429, "3", "", ""⟩, false⟩
  else ⟨false, .resp ⟨200, "", "", ""⟩, false⟩

/-- Witness for C7: the loop sleeps 3 seconds after the 429 and then
surfaces the 200 response. -/
theorem C7_execute_backoff_witness :
    executeGo (fun _ => none) 0 envC7 2 0
      = (.ok ⟨200, "", "", ""⟩, [.request 0, .sleep 3, .request 1]) := by
  have h := C7_execute_backoff.2.1 (fun _ => none) 0 envC7 1 0 ⟨429, "3", "", ""⟩
    (by decide) rfl
  rw [h]
  have ha : atoi "3" = some 3 := by decide
  have hw : (if parseRetryAfter (fun _ => none) 0 ⟨429, "3", "", ""⟩ ≤ 0 then (2 : ℚ)
      else parseRetryAfter (fun _ => none) 0 ⟨429, "3", "", ""⟩) = 3 := by
    simp only [parseRetryAfter, ha]
    norm_num [if_neg (by decide : ¬("3" : String) = "")]
  rw [hw]
  have hrest : executeGo (fun _ => none) 0 envC7 1 1 = (.ok ⟨200, "", "", ""⟩, [.request 1]) := by
    rw [executeGo]
    norm_num [envC7]
  rw [hrest]

end Harvest
